import Mathlib

/-!
Verification of the multi-hypothesis pose-tracking core of the
BHumanCodeRelease2024 repository (self-localization based on Unscented
Kalman Filters).

The repository fragment at hand is declaration-only: the headers
`UKFRobotPoseHypothesis.h` and `GoalPostsPerceptor.h` declare the data
model and the operations, but their implementations (`.cpp` files and the
base class `UKFPose2D`) are not part of the fragment.  Consequently every
operation below is modelled from the specification text and the
declarations' documentation comments, as indicated in each doc comment.

Angles are radians over `ℝ`, positions are millimetres over `ℝ`,
covariances are `3 × 3` real matrices.
-/

namespace Angle

/-- Modelled from the spec: heading renormalization into the half-open
interval `(-π, π]` ("θ normalized to (−π, π]", "Must renormalize heading
into (−π, π] after composition").  The implementation of the `Angle`
utility is not part of the fragment; we subtract the unique integer
multiple of `2π` that lands the angle in `(-π, π]`. -/
noncomputable def normalize (a : ℝ) : ℝ :=
  a - 2 * Real.pi * ((⌈a / (2 * Real.pi) - 1 / 2⌉ : ℤ) : ℝ)

end Angle

/-- Modelled from the source declaration of `Pose2f` (used throughout
`UKFRobotPoseHypothesis.h`): a 2D pose consisting of a position in the
plane and an orientation in this plane. -/
structure Pose2f where
  x : ℝ
  y : ℝ
  rot : ℝ

/-- Modelled from the spec: "Pose State (UKFPose2D) — the per-hypothesis
nonlinear state estimator: mean pose (x, y, heading) plus a 3×3
covariance".  The implementation of the base class `UKFPose2D` is not
part of the fragment. -/
structure UKFPose2D where
  mean : Pose2f
  covariance : Matrix (Fin 3) (Fin 3) ℝ

/-- From `UKFRobotPoseHypothesis.h`: hypothesis of a robot's pose,
extending `UKFPose2D` with a resampling weighting, a validity in `[0,1]`
and a unique identifier. -/
structure UKFRobotPoseHypothesis extends UKFPose2D where
  weighting : ℝ
  validity : ℝ
  id : ℤ

namespace UKFRobotPoseHypothesis

/-- Modelled from the spec: "`init(pose, poseDeviation, id, validity)`:
sets mean to `pose`, covariance to a diagonal matrix derived from
`poseDeviation` (per-axis standard deviation, squared), assigns `id` and
initial `validity`; `weighting` is left at its floor value until first
computed."  The heading is stored normalized, per the data-model
invariant "θ normalized to (−π, π]".  The implementation of `init` is
not part of the fragment. -/
noncomputable def init (pose poseDeviation : Pose2f) (id : ℤ) (validity : ℝ) :
    UKFRobotPoseHypothesis :=
  { mean := { x := pose.x, y := pose.y, rot := Angle.normalize pose.rot }
    covariance :=
      Matrix.diagonal ![poseDeviation.x ^ 2, poseDeviation.y ^ 2, poseDeviation.rot ^ 2]
    weighting := 0
    validity := validity
    id := id }

/-- Sign pattern of the 180° point reflection about the field center on
the state dimensions (x, y, heading): the position components flip,
the heading dimension keeps its sign (the rotation is handled by adding
π). -/
def mirrorSign : Fin 3 → ℝ := ![-1, -1, 1]

/-- The reflection matrix corresponding to `mirrorSign`. -/
def mirrorMatrix : Matrix (Fin 3) (Fin 3) ℝ := Matrix.diagonal mirrorSign

/-- Modelled from the spec: "`mirror()`: reflects the hypothesis 180°
about the field center — negates x and y of `mean` and adds π to heading
(renormalized), and applies the corresponding reflection to `covariance`
(sign flips on the cross-terms that change sign under the reflection,
magnitudes unchanged) ...; does not alter `id`, `validity`, or
`weighting`."  The implementation of `mirror` is not part of the
fragment. -/
noncomputable def mirror (s : UKFRobotPoseHypothesis) : UKFRobotPoseHypothesis :=
  { s with
    mean := { x := -s.mean.x, y := -s.mean.y
              rot := Angle.normalize (s.mean.rot + Real.pi) }
    covariance := mirrorMatrix * s.covariance * mirrorMatrix.transpose }

/-- Modelled from the spec: "`updateValidity(frames, currentValidity)`:
new validity = (old validity × (frames − 1) + currentValidity) / frames"
together with the failure policy "`frames < 1`: the offending
update/call is skipped; the hypothesis retains its prior state".  The
implementation of `updateValidity` is not part of the fragment. -/
noncomputable def updateValidity (s : UKFRobotPoseHypothesis) (frames : ℤ)
    (currentValidity : ℝ) : UKFRobotPoseHypothesis :=
  if frames < 1 then s
  else
    { s with
      validity := (s.validity * ((frames : ℝ) - 1) + currentValidity) / (frames : ℝ) }

/-- Modelled from the spec/header: "Sets the validity to 0, which will
automatically lead to 0 weighting, too."  The implementation of
`invalidate` is not part of the fragment. -/
def invalidate (s : UKFRobotPoseHypothesis) : UKFRobotPoseHypothesis :=
  { s with validity := 0 }

/-- Modelled from the spec:
"`computeWeightingBasedOnValidity(baseValidityWeighting)`: weighting =
max(validity, baseValidityWeighting)".  The implementation is not part
of the fragment. -/
noncomputable def computeWeightingBasedOnValidity (s : UKFRobotPoseHypothesis)
    (baseValidityWeighting : ℝ) : UKFRobotPoseHypothesis :=
  { s with weighting := max s.validity baseValidityWeighting }

/-- Modelled from the spec: "`getCombinedVariance()`: a scalar
uncertainty summary combining the x, y, and rotational variances (e.g.,
trace-based or weighted sum)"; we use the trace of the covariance.  The
implementation is not part of the fragment. -/
def getCombinedVariance (s : UKFRobotPoseHypothesis) : ℝ :=
  s.covariance 0 0 + s.covariance 1 1 + s.covariance 2 2

end UKFRobotPoseHypothesis

/-- A fixed concrete hypothesis used to instantiate witnesses. -/
noncomputable def hyp0 : UKFRobotPoseHypothesis :=
  { mean := { x := 100, y := -200, rot := 0 }
    covariance := 1
    weighting := 0
    validity := 1 / 2
    id := 1 }

/-- Modelled from the spec: `RegisteredLandmark` — "a point feature on
the field (e.g., center mark, penalty mark) with its measured position
and an associated measurement covariance"; the registration stage has
matched the percept against the field model, so the landmark's model
position on the field is available to the observation function
("hypothesis pose + landmark field position → predicted landmark
position in the hypothesis's own frame"). -/
structure RegisteredLandmark where
  percept : Fin 2 → ℝ
  cov : Matrix (Fin 2) (Fin 2) ℝ
  model : Fin 2 → ℝ

/-- Modelled from the spec: `RegisteredLine` — "a field line segment
with measured endpoints/direction and covariance", matched against a
model line of the field. -/
structure RegisteredLine where
  perceptStart : Fin 2 → ℝ
  perceptEnd : Fin 2 → ℝ
  modelStart : Fin 2 → ℝ
  modelEnd : Fin 2 → ℝ
  cov : Matrix (Fin 2) (Fin 2) ℝ

/-- Modelled from the spec: `RegisteredAbsolutePoseMeasurement` — "a
directly measured robot pose ... with covariance, to be fused as a
full-state observation". -/
structure RegisteredAbsolutePoseMeasurement where
  absolutePoseOnField : Pose2f
  cov : Matrix (Fin 3) (Fin 3) ℝ

/-- A degenerate measurement covariance in the sense of the spec's
failure policy: "a measurement covariance is degenerate (any diagonal
entry ≤ 0)". -/
def degenerateCov {m : ℕ} (r : Matrix (Fin m) (Fin m) ℝ) : Prop :=
  ∃ i, r i i ≤ 0

/-- Modelled from the spec: "a small positive floor" for the eigenvalue
clamping of the covariance repair. -/
noncomputable def covarianceFloor : ℝ := 1 / 1000000

/-- The symmetrized half-sum `(A + Aᵀ)/2` used by the covariance
repair ("symmetrizing"). -/
noncomputable def symCov (A : Matrix (Fin 3) (Fin 3) ℝ) : Matrix (Fin 3) (Fin 3) ℝ :=
  (1 / 2 : ℝ) • (A + A.transpose)

/-- The symmetrized matrix is Hermitian (over `ℝ`: symmetric). -/
def isHermitian_symCov (A : Matrix (Fin 3) (Fin 3) ℝ) :
    (symCov A).IsHermitian := by
  show (symCov A).conjTranspose = symCov A
  ext i j
  simp only [symCov, Matrix.conjTranspose_apply, Matrix.smul_apply,
    Matrix.add_apply, Matrix.transpose_apply, star_trivial, smul_eq_mul]
  ring

/-- Modelled from the spec: the numerical repair applied after every
predict/update — "corrected by symmetrizing and clamping eigenvalues to
a small positive floor after every update".  The matrix is symmetrized,
eigendecomposed, and its eigenvalues are clamped from below by
`covarianceFloor`. -/
noncomputable def fixCovariance (A : Matrix (Fin 3) (Fin 3) ℝ) :
    Matrix (Fin 3) (Fin 3) ℝ :=
  (isHermitian_symCov A).eigenvectorUnitary.1 *
    Matrix.diagonal (fun i => max covarianceFloor ((isHermitian_symCov A).eigenvalues i)) *
    star (isHermitian_symCov A).eigenvectorUnitary.1

/-- The well-formedness of a covariance demanded by the spec: symmetric,
positive semidefinite, and with nonnegative diagonal entries. -/
def goodCovariance (m : Matrix (Fin 3) (Fin 3) ℝ) : Prop :=
  m.PosSemidef ∧ m.transpose = m ∧ ∀ i, 0 ≤ m i i

section
open Classical

/-- The matrix square root used to generate sigma points (defined for
positive semidefinite input, the case the filter maintains). -/
noncomputable def covarianceSqrt (p : Matrix (Fin 3) (Fin 3) ℝ) :
    Matrix (Fin 3) (Fin 3) ℝ :=
  if h : p.PosSemidef then h.sqrt else 0

/-- The state mean as a vector over the three state dimensions. -/
def meanVec (s : UKFPose2D) : Fin 3 → ℝ := ![s.mean.x, s.mean.y, s.mean.rot]

/-- The fixed sigma-point weight: `2n` symmetric sigma points for
`n = 3` state dimensions, each weighted `1/(2n)`. -/
noncomputable def sigmaWeight : ℝ := 1 / 6

/-- Modelled from the spec: "generate 2n+1 sigma points from the current
mean/covariance (n=3)" — we use the symmetric cubature set
`mean ± columns of sqrt(n·P)` with the fixed weights `sigmaWeight`. -/
noncomputable def sigmaPoints (s : UKFPose2D) : Fin 6 → Fin 3 → ℝ := fun k =>
  if h : (k : ℕ) < 3 then
    fun i => meanVec s i + covarianceSqrt ((3 : ℝ) • s.covariance) i ⟨(k : ℕ), h⟩
  else
    fun i => meanVec s i - covarianceSqrt ((3 : ℝ) • s.covariance) i
      ⟨(k : ℕ) - 3, by have hk := k.isLt; omega⟩

/-- Modelled from the spec: the generic unscented update — "transform
sigma points through `observationFn` to predicted-measurement space,
compute predicted measurement mean/covariance and cross-covariance, form
the Kalman gain, and apply the correction to `mean`/`covariance`",
renormalizing the heading and repairing the covariance afterwards. -/
noncomputable def unscentedUpdate (m : ℕ) (s : UKFPose2D)
    (obs : (Fin 3 → ℝ) → Fin m → ℝ) (z : Fin m → ℝ)
    (r : Matrix (Fin m) (Fin m) ℝ) : UKFPose2D :=
  let χ : Fin 6 → Fin 3 → ℝ := sigmaPoints s
  let zs : Fin 6 → Fin m → ℝ := fun k => obs (χ k)
  let zhat : Fin m → ℝ := fun i => sigmaWeight * ∑ k, zs k i
  let innovationCov : Matrix (Fin m) (Fin m) ℝ :=
    Matrix.of fun i j =>
      (sigmaWeight * ∑ k, (zs k i - zhat i) * (zs k j - zhat j)) + r i j
  let crossCov : Matrix (Fin 3) (Fin m) ℝ :=
    Matrix.of fun i j => sigmaWeight * ∑ k, (χ k i - meanVec s i) * (zs k j - zhat j)
  let gain : Matrix (Fin 3) (Fin m) ℝ := crossCov * innovationCov⁻¹
  let newMean : Fin 3 → ℝ := fun i => meanVec s i + gain.mulVec (fun i => z i - zhat i) i
  { mean := { x := newMean 0, y := newMean 1, rot := Angle.normalize (newMean 2) }
    covariance := fixCovariance (s.covariance - gain * innovationCov * gain.transpose) }

/-- Modelled from the spec: the relative-motion composition applied to a
state vector — rotate the motion delta into the field frame by the state
heading, add it to the position, and add the rotational delta to the
heading. -/
noncomputable def poseComposition (motionDelta : Pose2f) (v : Fin 3 → ℝ) : Fin 3 → ℝ :=
  ![v 0 + Real.cos (v 2) * motionDelta.x - Real.sin (v 2) * motionDelta.y,
    v 1 + Real.sin (v 2) * motionDelta.x + Real.cos (v 2) * motionDelta.y,
    v 2 + motionDelta.rot]

namespace UKFPose2D

/-- Modelled from the spec: "`predict(motionDelta, motionNoise)`:
applies a relative-motion composition to `mean` and propagates
`covariance` through the nonlinear motion model using an unscented
(sigma-point) transform ... then add process noise.  Must renormalize
heading into (−π, π] after composition", followed by the numerical
covariance repair. -/
noncomputable def predict (s : UKFPose2D) (motionDelta motionNoise : Pose2f) :
    UKFPose2D :=
  let χ : Fin 6 → Fin 3 → ℝ := fun k => poseComposition motionDelta (sigmaPoints s k)
  let μ : Fin 3 → ℝ := fun i => sigmaWeight * ∑ k, χ k i
  let q : Matrix (Fin 3) (Fin 3) ℝ :=
    Matrix.diagonal ![motionNoise.x ^ 2, motionNoise.y ^ 2, motionNoise.rot ^ 2]
  { mean := { x := μ 0, y := μ 1, rot := Angle.normalize (μ 2) }
    covariance :=
      fixCovariance ((Matrix.of fun i j => sigmaWeight * ∑ k, (χ k i - μ i) * (χ k j - μ j)) + q) }

end UKFPose2D

namespace UKFRobotPoseHypothesis

/-- Modelled from the spec: the observation function of
`updateByLandmark` — "maps hypothesis pose + landmark field position →
predicted landmark position in the hypothesis's own frame". -/
noncomputable def landmarkObservation (model : Fin 2 → ℝ) (v : Fin 3 → ℝ) :
    Fin 2 → ℝ :=
  ![Real.cos (v 2) * (model 0 - v 0) + Real.sin (v 2) * (model 1 - v 1),
    -Real.sin (v 2) * (model 0 - v 0) + Real.cos (v 2) * (model 1 - v 1)]

/-- Signed perpendicular distance of the point `p` from the line through
`a` and `b`. -/
noncomputable def linePointDistance (a b p : Fin 2 → ℝ) : ℝ :=
  ((b 0 - a 0) * (p 1 - a 1) - (b 1 - a 1) * (p 0 - a 0)) /
    Real.sqrt ((b 0 - a 0) ^ 2 + (b 1 - a 1) ^ 2)

/-- Modelled from the spec: "Update the estimate based on the
measurement of a landmark"; per the failure policy, a degenerate
measurement covariance (any diagonal entry ≤ 0) causes the update to be
skipped with the hypothesis unchanged. -/
noncomputable def updateByLandmark (s : UKFRobotPoseHypothesis)
    (landmark : RegisteredLandmark) : UKFRobotPoseHypothesis :=
  if degenerateCov landmark.cov then s
  else
    { s with toUKFPose2D :=
        (unscentedUpdate 2 s.toUKFPose2D (landmarkObservation landmark.model)
          landmark.percept landmark.cov) }

/-- Modelled from the spec: "`updateByLine(line)`: 1D unscented update
on perpendicular distance-and-angle residual between the hypothesis's
predicted line position (from known field line geometry) and the
measured line"; skipped on a degenerate measurement covariance. -/
noncomputable def updateByLine (s : UKFRobotPoseHypothesis)
    (line : RegisteredLine) : UKFRobotPoseHypothesis :=
  if degenerateCov line.cov then s
  else
    { s with toUKFPose2D :=
        (unscentedUpdate 1 s.toUKFPose2D
          (fun v => ![linePointDistance line.modelStart line.modelEnd ![v 0, v 1]])
          ![linePointDistance line.perceptStart line.perceptEnd ![0, 0]]
          ![![line.cov 0 0 + line.cov 1 1]]) }

/-- Modelled from the spec: "`updateByLineOnCenterCircle(line,
centerCircleRadius)`: variant of the line update where the line is
treated as a short tangent/secant to the center circle; the observation
function must account for the circle's curvature" — the predicted
residual is the distance of the hypothesis position from the center
circle; skipped on a degenerate measurement covariance. -/
noncomputable def updateByLineOnCenterCircle (s : UKFRobotPoseHypothesis)
    (line : RegisteredLine) (centerCircleRadius : ℝ) : UKFRobotPoseHypothesis :=
  if degenerateCov line.cov then s
  else
    { s with toUKFPose2D :=
        (unscentedUpdate 1 s.toUKFPose2D
          (fun v => ![Real.sqrt (v 0 ^ 2 + v 1 ^ 2) - centerCircleRadius])
          ![linePointDistance line.perceptStart line.perceptEnd ![0, 0]]
          ![![line.cov 0 0 + line.cov 1 1]]) }

/-- Modelled from the spec: "`updateByPose(pose)`: 3D unscented update
treating the externally computed absolute pose as a direct full-state
measurement"; skipped on a degenerate measurement covariance. -/
noncomputable def updateByPose (s : UKFRobotPoseHypothesis)
    (pose : RegisteredAbsolutePoseMeasurement) : UKFRobotPoseHypothesis :=
  if degenerateCov pose.cov then s
  else
    { s with toUKFPose2D :=
        (unscentedUpdate 3 s.toUKFPose2D (fun v => v)
          ![pose.absolutePoseOnField.x, pose.absolutePoseOnField.y,
            pose.absolutePoseOnField.rot]
          pose.cov) }

end UKFRobotPoseHypothesis

end

/-- A concrete landmark measurement with a degenerate covariance. -/
noncomputable def lm0 : RegisteredLandmark :=
  { percept := ![0, 0], cov := ![![-1, 0], ![0, 1]], model := ![1000, 0] }

/-- A concrete line measurement with a degenerate covariance. -/
noncomputable def line0 : RegisteredLine :=
  { perceptStart := ![0, 0], perceptEnd := ![1000, 0]
    modelStart := ![0, 0], modelEnd := ![1000, 0]
    cov := ![![0, 0], ![0, 0]] }

/-- A concrete absolute pose measurement with a degenerate covariance. -/
noncomputable def poseMeas0 : RegisteredAbsolutePoseMeasurement :=
  { absolutePoseOnField := ⟨0, 0, 0⟩
    cov := ![![-2, 0, 0], ![0, 1, 0], ![0, 0, 1]] }

namespace GoalPostsPerceptor

/-- From `GoalPostsPerceptor.h`: "Struct that represents a goal post
candidate as a rectangle inside the image", with an upper-left and a
lower-right corner point. -/
structure GoalPostRegion where
  upperLeft : ℝ × ℝ
  lowerRight : ℝ × ℝ

/-- From `GoalPostsPerceptor.h`: "Maximum number of candidates that can
be classfied in a single frame. (to limit runtime in case of disaster)",
declared with default value 15. -/
def candidateLimit : ℕ := 15

/-- Modelled from the spec: the implementation of `generatePatch` is
not part of the fragment; per the declarations, it extracts patches from
the list of goal-post candidate regions and submits them to the
neural-net classifier `classifyGoalPost`, hard-capped at
`candidateLimit` submissions per frame regardless of how many candidate
regions were extracted. -/
def submittedForClassification (regionList : List GoalPostRegion) :
    List GoalPostRegion :=
  regionList.take candidateLimit

/-- Modelled from the spec: `generatePatch` keeps the submitted
candidates that the classifier (an external neural net, abstracted as a
boolean predicate) accepts as goal posts. -/
def generatePatch (classify : GoalPostRegion → Bool)
    (regionList : List GoalPostRegion) : List GoalPostRegion :=
  (submittedForClassification regionList).filter classify

end GoalPostsPerceptor

namespace Angle

/-- The normalized angle lies in `(-π, π]`. -/
theorem normalize_mem (a : ℝ) :
    -Real.pi < normalize a ∧ normalize a ≤ Real.pi := by
  have hπ : (0 : ℝ) < Real.pi := Real.pi_pos
  have h2π : (0 : ℝ) < 2 * Real.pi := by linarith
  set k : ℤ := ⌈a / (2 * Real.pi) - 1 / 2⌉ with hk
  have h1 : a / (2 * Real.pi) - 1 / 2 ≤ (k : ℝ) := Int.le_ceil _
  have h2 : (k : ℝ) < a / (2 * Real.pi) - 1 / 2 + 1 := Int.ceil_lt_add_one _
  have h1' : a ≤ ((k : ℝ) + 1 / 2) * (2 * Real.pi) := by
    have hle : a / (2 * Real.pi) ≤ (k : ℝ) + 1 / 2 := by linarith
    exact (div_le_iff₀ h2π).mp hle
  have h2' : ((k : ℝ) - 1 / 2) * (2 * Real.pi) < a := by
    have hlt : (k : ℝ) - 1 / 2 < a / (2 * Real.pi) := by linarith
    exact (lt_div_iff₀ h2π).mp hlt
  have e1 : ((k : ℝ) + 1 / 2) * (2 * Real.pi) = 2 * Real.pi * (k : ℝ) + Real.pi := by
    ring
  have e2 : ((k : ℝ) - 1 / 2) * (2 * Real.pi) = 2 * Real.pi * (k : ℝ) - Real.pi := by
    ring
  unfold normalize
  rw [← hk]
  constructor
  · linarith [h2', e2]
  · linarith [h1', e1]

/-- An angle already in `(-π, π]` is left unchanged by normalization. -/
theorem normalize_eq_of_mem (a : ℝ) (h1 : -Real.pi < a) (h2 : a ≤ Real.pi) :
    normalize a = a := by
  have hπ : (0 : ℝ) < Real.pi := Real.pi_pos
  have h2π : (0 : ℝ) < 2 * Real.pi := by linarith
  have hc : (⌈a / (2 * Real.pi) - 1 / 2⌉ : ℤ) = 0 := by
    rw [Int.ceil_eq_zero_iff, Set.mem_Ioc]
    constructor
    · have hh : -(1 / 2 : ℝ) < a / (2 * Real.pi) := by
        rw [lt_div_iff₀ h2π]
        linarith
      linarith
    · have hh : a / (2 * Real.pi) ≤ 1 / 2 := by
        rw [div_le_iff₀ h2π]
        linarith
      linarith
  unfold normalize
  rw [hc]
  push_cast
  ring

/-- Normalization is invariant under adding a full turn. -/
theorem normalize_add_two_pi (a : ℝ) :
    normalize (a + 2 * Real.pi) = normalize a := by
  have h2π : (0 : ℝ) < 2 * Real.pi := by linarith [Real.pi_pos]
  have harg : (a + 2 * Real.pi) / (2 * Real.pi) - 1 / 2
      = a / (2 * Real.pi) - 1 / 2 + 1 := by
    field_simp
    ring
  unfold normalize
  rw [harg, Int.ceil_add_one]
  push_cast
  ring

end Angle

/-- C1: for every hypothesis, every integer `frames ≥ 1` and every
`currentValidity`, `updateValidity` sets the new validity to
`(old validity * (frames - 1) + currentValidity) / frames`; in
particular, for `frames = 1` the result equals `currentValidity`
exactly, independent of the prior validity. -/
theorem updateValidity_spec (s : UKFRobotPoseHypothesis) (frames : ℤ)
    (currentValidity : ℝ) (hf : 1 ≤ frames) :
    (s.updateValidity frames currentValidity).validity
        = (s.validity * ((frames : ℝ) - 1) + currentValidity) / (frames : ℝ) ∧
    (frames = 1 →
      (s.updateValidity frames currentValidity).validity = currentValidity) := by
  have hnot : ¬ frames < 1 := not_lt.mpr hf
  constructor
  · simp only [UKFRobotPoseHypothesis.updateValidity, if_neg hnot]
  · intro h1
    subst h1
    simp only [UKFRobotPoseHypothesis.updateValidity, if_neg hnot]
    norm_num

/-- Witness for C1 at `frames = 1` on a concrete hypothesis. -/
theorem updateValidity_spec_witness :
    (1 : ℤ) ≤ 1 ∧
    ((hyp0.updateValidity 1 (9 / 10)).validity
        = (hyp0.validity * (((1 : ℤ) : ℝ) - 1) + 9 / 10) / ((1 : ℤ) : ℝ) ∧
      ((1 : ℤ) = 1 → (hyp0.updateValidity 1 (9 / 10)).validity = 9 / 10)) :=
  ⟨le_refl 1, updateValidity_spec hyp0 1 (9 / 10) (le_refl 1)⟩

/-- C3: for every `baseValidityWeighting` and every hypothesis with
validity in `[0,1]`, `computeWeightingBasedOnValidity` sets the
weighting to `max validity baseValidityWeighting`; consequently the
resulting weighting is never less than the base weighting. -/
theorem computeWeightingBasedOnValidity_spec (s : UKFRobotPoseHypothesis)
    (b : ℝ) (h0 : 0 ≤ s.validity) (h1 : s.validity ≤ 1) :
    (s.computeWeightingBasedOnValidity b).weighting = max s.validity b ∧
    b ≤ (s.computeWeightingBasedOnValidity b).weighting := by
  refine ⟨rfl, ?_⟩
  simp only [UKFRobotPoseHypothesis.computeWeightingBasedOnValidity]
  exact le_max_right _ _

/-- Witness for C3 on a concrete hypothesis and base weighting. -/
theorem computeWeightingBasedOnValidity_spec_witness :
    ((0 : ℝ) ≤ hyp0.validity ∧ hyp0.validity ≤ 1) ∧
    ((hyp0.computeWeightingBasedOnValidity (1 / 5)).weighting
        = max hyp0.validity (1 / 5) ∧
      (1 / 5 : ℝ) ≤ (hyp0.computeWeightingBasedOnValidity (1 / 5)).weighting) := by
  have h0 : (0 : ℝ) ≤ hyp0.validity := by norm_num [hyp0]
  have h1 : hyp0.validity ≤ 1 := by norm_num [hyp0]
  exact ⟨⟨h0, h1⟩, computeWeightingBasedOnValidity_spec hyp0 (1 / 5) h0 h1⟩

/-- C4: `invalidate` sets the validity to exactly 0, and a subsequent
`computeWeightingBasedOnValidity b` with any `b ≥ 0` sets the weighting
to exactly `b`. -/
theorem invalidate_spec (s : UKFRobotPoseHypothesis) (b : ℝ) (hb : 0 ≤ b) :
    s.invalidate.validity = 0 ∧
    (s.invalidate.computeWeightingBasedOnValidity b).weighting = b := by
  refine ⟨rfl, ?_⟩
  simp only [UKFRobotPoseHypothesis.computeWeightingBasedOnValidity,
    UKFRobotPoseHypothesis.invalidate]
  exact max_eq_right hb

/-- Witness for C4 on a concrete hypothesis and base weighting. -/
theorem invalidate_spec_witness :
    (0 : ℝ) ≤ 3 / 10 ∧
    (hyp0.invalidate.validity = 0 ∧
      (hyp0.invalidate.computeWeightingBasedOnValidity (3 / 10)).weighting = 3 / 10) :=
  ⟨by norm_num, invalidate_spec hyp0 (3 / 10) (by norm_num)⟩

theorem mirrorSign_mul_self (i : Fin 3) :
    UKFRobotPoseHypothesis.mirrorSign i * UKFRobotPoseHypothesis.mirrorSign i = 1 := by
  fin_cases i <;> norm_num [UKFRobotPoseHypothesis.mirrorSign]

theorem abs_mirrorSign (i : Fin 3) : |UKFRobotPoseHypothesis.mirrorSign i| = 1 := by
  fin_cases i <;> norm_num [UKFRobotPoseHypothesis.mirrorSign]

/-- Entrywise description of the reflection applied to the covariance by
`mirror`. -/
theorem mirror_covariance_apply (s : UKFRobotPoseHypothesis) (i j : Fin 3) :
    s.mirror.covariance i j
      = UKFRobotPoseHypothesis.mirrorSign i * UKFRobotPoseHypothesis.mirrorSign j
          * s.covariance i j := by
  simp only [UKFRobotPoseHypothesis.mirror, UKFRobotPoseHypothesis.mirrorMatrix,
    Matrix.diagonal_transpose, Matrix.mul_diagonal, Matrix.diagonal_mul]
  ring

/-- C6: `mirror` negates the x and y components of the mean, adds π to
the heading renormalized into `(-π, π]`, applies the sign-flip
reflection to the covariance with magnitudes unchanged, and leaves
`id`, `validity` and `weighting` exactly unchanged. -/
theorem mirror_spec (s : UKFRobotPoseHypothesis) :
    s.mirror.mean.x = -s.mean.x ∧
    s.mirror.mean.y = -s.mean.y ∧
    s.mirror.mean.rot = Angle.normalize (s.mean.rot + Real.pi) ∧
    (-Real.pi < s.mirror.mean.rot ∧ s.mirror.mean.rot ≤ Real.pi) ∧
    (∀ i j, s.mirror.covariance i j
        = UKFRobotPoseHypothesis.mirrorSign i * UKFRobotPoseHypothesis.mirrorSign j
            * s.covariance i j) ∧
    (∀ i j, |s.mirror.covariance i j| = |s.covariance i j|) ∧
    s.mirror.id = s.id ∧ s.mirror.validity = s.validity ∧
    s.mirror.weighting = s.weighting := by
  refine ⟨rfl, rfl, rfl, Angle.normalize_mem _, mirror_covariance_apply s, ?_,
    rfl, rfl, rfl⟩
  intro i j
  rw [mirror_covariance_apply, abs_mul, abs_mul, abs_mirrorSign, abs_mirrorSign,
    one_mul, one_mul]

/-- C2: `mirror` is an involution: applying it twice restores the mean
pose and the covariance exactly (the hypothesis' heading being
normalized, as the data-model invariant guarantees). -/
theorem mirror_involutive (s : UKFRobotPoseHypothesis)
    (h1 : -Real.pi < s.mean.rot) (h2 : s.mean.rot ≤ Real.pi) :
    s.mirror.mirror.mean = s.mean ∧ s.mirror.mirror.covariance = s.covariance := by
  have hπ : (0 : ℝ) < Real.pi := Real.pi_pos
  constructor
  · have hx : s.mirror.mirror.mean.x = s.mean.x := by
      show -(-s.mean.x) = s.mean.x
      ring
    have hy : s.mirror.mirror.mean.y = s.mean.y := by
      show -(-s.mean.y) = s.mean.y
      ring
    have hrot : s.mirror.mirror.mean.rot = s.mean.rot := by
      show Angle.normalize (Angle.normalize (s.mean.rot + Real.pi) + Real.pi)
          = s.mean.rot
      rcases le_or_lt s.mean.rot 0 with ha | ha
      · have e1 : Angle.normalize (s.mean.rot + Real.pi) = s.mean.rot + Real.pi :=
          Angle.normalize_eq_of_mem _ (by linarith) (by linarith)
        rw [e1, show s.mean.rot + Real.pi + Real.pi = s.mean.rot + 2 * Real.pi by ring,
          Angle.normalize_add_two_pi]
        exact Angle.normalize_eq_of_mem _ h1 h2
      · have e1 : Angle.normalize (s.mean.rot + Real.pi) = s.mean.rot - Real.pi := by
          rw [show s.mean.rot + Real.pi = s.mean.rot - Real.pi + 2 * Real.pi by ring,
            Angle.normalize_add_two_pi]
          exact Angle.normalize_eq_of_mem _ (by linarith) (by linarith)
        rw [e1, show s.mean.rot - Real.pi + Real.pi = s.mean.rot by ring]
        exact Angle.normalize_eq_of_mem _ h1 h2
    cases hm : s.mirror.mirror.mean
    cases hm2 : s.mean
    simp only [hm, hm2] at hx hy hrot
    simp [hx, hy, hrot]
  · ext i j
    rw [mirror_covariance_apply, mirror_covariance_apply]
    have hi := mirrorSign_mul_self i
    have hj := mirrorSign_mul_self j
    have e : UKFRobotPoseHypothesis.mirrorSign i * UKFRobotPoseHypothesis.mirrorSign j
          * (UKFRobotPoseHypothesis.mirrorSign i * UKFRobotPoseHypothesis.mirrorSign j
            * s.covariance i j)
        = (UKFRobotPoseHypothesis.mirrorSign i * UKFRobotPoseHypothesis.mirrorSign i)
          * ((UKFRobotPoseHypothesis.mirrorSign j * UKFRobotPoseHypothesis.mirrorSign j)
            * s.covariance i j) := by
      ring
    rw [e, hi, hj, one_mul, one_mul]

/-- Witness for C2 on a concrete hypothesis with heading 0. -/
theorem mirror_involutive_witness :
    (-Real.pi < hyp0.mean.rot ∧ hyp0.mean.rot ≤ Real.pi) ∧
    (hyp0.mirror.mirror.mean = hyp0.mean ∧
      hyp0.mirror.mirror.covariance = hyp0.covariance) := by
  have h1 : -Real.pi < hyp0.mean.rot := by
    show -Real.pi < 0
    linarith [Real.pi_pos]
  have h2 : hyp0.mean.rot ≤ Real.pi := by
    show (0 : ℝ) ≤ Real.pi
    linarith [Real.pi_pos]
  exact ⟨⟨h1, h2⟩, mirror_involutive hyp0 h1 h2⟩

/-- After `init`, the combined variance is the sum of the squared
per-axis deviations. -/
theorem init_getCombinedVariance (pose : Pose2f) (d : Pose2f) (n : ℤ) (v : ℝ) :
    (UKFRobotPoseHypothesis.init pose d n v).getCombinedVariance
      = d.x ^ 2 + d.y ^ 2 + d.rot ^ 2 := by
  simp [UKFRobotPoseHypothesis.init, UKFRobotPoseHypothesis.getCombinedVariance,
    Matrix.diagonal_apply_eq]

/-- C7: `getCombinedVariance` is a deterministic function of the
covariance, and after `init` it is monotone in each component of
`poseDeviation` (for nonnegative deviations). -/
theorem getCombinedVariance_monotone (pose : Pose2f) (d e : Pose2f) (n : ℤ) (v : ℝ)
    (h0x : 0 ≤ d.x) (h0y : 0 ≤ d.y) (h0r : 0 ≤ d.rot)
    (hx : d.x ≤ e.x) (hy : d.y ≤ e.y) (hr : d.rot ≤ e.rot) :
    (∀ s t : UKFRobotPoseHypothesis, s.covariance = t.covariance →
        s.getCombinedVariance = t.getCombinedVariance) ∧
    (UKFRobotPoseHypothesis.init pose d n v).getCombinedVariance
      ≤ (UKFRobotPoseHypothesis.init pose e n v).getCombinedVariance := by
  constructor
  · intro s t h
    simp [UKFRobotPoseHypothesis.getCombinedVariance, h]
  · rw [init_getCombinedVariance, init_getCombinedVariance]
    have hx2 : d.x ^ 2 ≤ e.x ^ 2 := pow_le_pow_left₀ h0x hx 2
    have hy2 : d.y ^ 2 ≤ e.y ^ 2 := pow_le_pow_left₀ h0y hy 2
    have hr2 : d.rot ^ 2 ≤ e.rot ^ 2 := pow_le_pow_left₀ h0r hr 2
    linarith

/-- Witness for C7 on concrete deviations. -/
theorem getCombinedVariance_monotone_witness :
    ((0 : ℝ) ≤ 1 ∧ (0 : ℝ) ≤ 2 ∧ (0 : ℝ) ≤ 1 / 2 ∧
      (1 : ℝ) ≤ 2 ∧ (2 : ℝ) ≤ 3 ∧ (1 / 2 : ℝ) ≤ 1) ∧
    ((∀ s t : UKFRobotPoseHypothesis, s.covariance = t.covariance →
        s.getCombinedVariance = t.getCombinedVariance) ∧
      (UKFRobotPoseHypothesis.init ⟨0, 0, 0⟩ ⟨1, 2, 1 / 2⟩ 1 1).getCombinedVariance
        ≤ (UKFRobotPoseHypothesis.init ⟨0, 0, 0⟩ ⟨2, 3, 1⟩ 1 1).getCombinedVariance) :=
  ⟨⟨by norm_num, by norm_num, by norm_num, by norm_num, by norm_num, by norm_num⟩,
    getCombinedVariance_monotone ⟨0, 0, 0⟩ ⟨1, 2, 1 / 2⟩ ⟨2, 3, 1⟩ 1 1
      (by norm_num) (by norm_num) (by norm_num)
      (by norm_num) (by norm_num) (by norm_num)⟩

/-- A positive semidefinite matrix is a well-formed covariance. -/
theorem goodCovariance_of_posSemidef {m : Matrix (Fin 3) (Fin 3) ℝ}
    (h : m.PosSemidef) : goodCovariance m := by
  refine ⟨h, ?_, ?_⟩
  · have h1 : m.conjTranspose = m := h.1
    rw [Matrix.conjTranspose_eq_transpose_of_trivial] at h1
    exact h1
  · intro i
    have h2 := h.2 (Pi.single i 1)
    simpa using h2

/-- The repaired covariance is positive semidefinite. -/
theorem fixCovariance_posSemidef (A : Matrix (Fin 3) (Fin 3) ℝ) :
    (fixCovariance A).PosSemidef := by
  have hd : Matrix.PosSemidef
      (Matrix.diagonal fun i => max covarianceFloor ((isHermitian_symCov A).eigenvalues i)) := by
    refine Matrix.PosSemidef.diagonal ?_
    intro i
    have hfl : (0 : ℝ) ≤ covarianceFloor := by norm_num [covarianceFloor]
    exact le_trans hfl (le_max_left _ _)
  exact hd.mul_mul_conjTranspose_same (isHermitian_symCov A).eigenvectorUnitary.1

/-- The repaired covariance is well-formed. -/
theorem fixCovariance_good (A : Matrix (Fin 3) (Fin 3) ℝ) :
    goodCovariance (fixCovariance A) :=
  goodCovariance_of_posSemidef (fixCovariance_posSemidef A)

/-- C8: after every predict and every update operation, the covariance
is symmetric and positive semidefinite, with all diagonal entries ≥ 0
(numerical violations being corrected by the symmetrize-and-clamp
repair applied by every operation). -/
theorem covariance_invariant (s : UKFRobotPoseHypothesis)
    (motionDelta motionNoise : Pose2f) (lm : RegisteredLandmark)
    (line circleLine : RegisteredLine) (radius : ℝ)
    (pm : RegisteredAbsolutePoseMeasurement)
    (hs : s.covariance.PosSemidef) :
    goodCovariance (s.toUKFPose2D.predict motionDelta motionNoise).covariance ∧
    goodCovariance (s.updateByLandmark lm).covariance ∧
    goodCovariance (s.updateByLine line).covariance ∧
    goodCovariance (s.updateByLineOnCenterCircle circleLine radius).covariance ∧
    goodCovariance (s.updateByPose pm).covariance := by
  have hgood : goodCovariance s.covariance := goodCovariance_of_posSemidef hs
  refine ⟨fixCovariance_good _, ?_, ?_, ?_, ?_⟩
  · unfold UKFRobotPoseHypothesis.updateByLandmark
    split_ifs with h
    · exact hgood
    · exact fixCovariance_good _
  · unfold UKFRobotPoseHypothesis.updateByLine
    split_ifs with h
    · exact hgood
    · exact fixCovariance_good _
  · unfold UKFRobotPoseHypothesis.updateByLineOnCenterCircle
    split_ifs with h
    · exact hgood
    · exact fixCovariance_good _
  · unfold UKFRobotPoseHypothesis.updateByPose
    split_ifs with h
    · exact hgood
    · exact fixCovariance_good _

/-- Witness for C8 on a concrete hypothesis with identity covariance. -/
theorem covariance_invariant_witness :
    hyp0.covariance.PosSemidef ∧
    (goodCovariance (hyp0.toUKFPose2D.predict ⟨10, 0, 0⟩ ⟨1, 1, 1 / 100⟩).covariance ∧
      goodCovariance (hyp0.updateByLandmark lm0).covariance ∧
      goodCovariance (hyp0.updateByLine line0).covariance ∧
      goodCovariance (hyp0.updateByLineOnCenterCircle line0 750).covariance ∧
      goodCovariance (hyp0.updateByPose poseMeas0).covariance) :=
  ⟨Matrix.PosSemidef.one,
    covariance_invariant hyp0 ⟨10, 0, 0⟩ ⟨1, 1, 1 / 100⟩ lm0 line0 line0 750 poseMeas0
      Matrix.PosSemidef.one⟩

/-- C5: for every invalid input — a measurement covariance with a
diagonal entry ≤ 0 passed to any `updateBy*` operation, or `frames < 1`
passed to `updateValidity` — the operation is skipped and the hypothesis
(mean, covariance, validity, weighting, id) is exactly what it was
before the call; all operations are total, so no failure is raised. -/
theorem invalid_input_skipped (s : UKFRobotPoseHypothesis)
    (lm : RegisteredLandmark) (line circleLine : RegisteredLine)
    (radius : ℝ) (pm : RegisteredAbsolutePoseMeasurement)
    (frames : ℤ) (currentValidity : ℝ)
    (hlm : degenerateCov lm.cov) (hline : degenerateCov line.cov)
    (hcirc : degenerateCov circleLine.cov) (hpm : degenerateCov pm.cov)
    (hf : frames < 1) :
    s.updateByLandmark lm = s ∧
    s.updateByLine line = s ∧
    s.updateByLineOnCenterCircle circleLine radius = s ∧
    s.updateByPose pm = s ∧
    s.updateValidity frames currentValidity = s := by
  refine ⟨?_, ?_, ?_, ?_, ?_⟩
  · simp only [UKFRobotPoseHypothesis.updateByLandmark, if_pos hlm]
  · simp only [UKFRobotPoseHypothesis.updateByLine, if_pos hline]
  · simp only [UKFRobotPoseHypothesis.updateByLineOnCenterCircle, if_pos hcirc]
  · simp only [UKFRobotPoseHypothesis.updateByPose, if_pos hpm]
  · simp only [UKFRobotPoseHypothesis.updateValidity, if_pos hf]

/-- Witness for C5 on concrete degenerate inputs. -/
theorem invalid_input_skipped_witness :
    (degenerateCov lm0.cov ∧ degenerateCov line0.cov ∧
      degenerateCov poseMeas0.cov ∧ (0 : ℤ) < 1) ∧
    (hyp0.updateByLandmark lm0 = hyp0 ∧
      hyp0.updateByLine line0 = hyp0 ∧
      hyp0.updateByLineOnCenterCircle line0 750 = hyp0 ∧
      hyp0.updateByPose poseMeas0 = hyp0 ∧
      hyp0.updateValidity 0 (1 / 2) = hyp0) := by
  have hlm : degenerateCov lm0.cov := ⟨0, by norm_num [lm0]⟩
  have hline : degenerateCov line0.cov := ⟨0, by norm_num [line0]⟩
  have hpm : degenerateCov poseMeas0.cov := ⟨0, by norm_num [poseMeas0]⟩
  exact ⟨⟨hlm, hline, hpm, by norm_num⟩,
    invalid_input_skipped hyp0 lm0 line0 line0 750 poseMeas0 0 (1 / 2)
      hlm hline hline hpm (by norm_num)⟩

/-- C9: the heading of the mean pose is normalized into `(-π, π]` after
`init`, after every `predict`, and after `mirror` (which adds π and
renormalizes). -/
theorem heading_normalized (pose poseDeviation : Pose2f) (n : ℤ) (v : ℝ)
    (s : UKFPose2D) (motionDelta motionNoise : Pose2f)
    (t : UKFRobotPoseHypothesis) :
    (-Real.pi < (UKFRobotPoseHypothesis.init pose poseDeviation n v).mean.rot ∧
      (UKFRobotPoseHypothesis.init pose poseDeviation n v).mean.rot ≤ Real.pi) ∧
    (-Real.pi < (s.predict motionDelta motionNoise).mean.rot ∧
      (s.predict motionDelta motionNoise).mean.rot ≤ Real.pi) ∧
    (t.mirror.mean.rot = Angle.normalize (t.mean.rot + Real.pi) ∧
      -Real.pi < t.mirror.mean.rot ∧ t.mirror.mean.rot ≤ Real.pi) :=
  ⟨Angle.normalize_mem _, Angle.normalize_mem _, rfl, Angle.normalize_mem _⟩

/-- C10: in every frame at most `candidateLimit` (default 15) candidate
patches are submitted to neural-net classification, regardless of how
many goal-post candidate regions were extracted from the image. -/
theorem generatePatch_candidateLimit
    (classify : GoalPostsPerceptor.GoalPostRegion → Bool)
    (regionList : List GoalPostsPerceptor.GoalPostRegion) :
    (GoalPostsPerceptor.submittedForClassification regionList).length
        ≤ GoalPostsPerceptor.candidateLimit ∧
    (GoalPostsPerceptor.generatePatch classify regionList).length
        ≤ GoalPostsPerceptor.candidateLimit ∧
    GoalPostsPerceptor.candidateLimit = 15 := by
  refine ⟨?_, ?_, rfl⟩
  · exact List.length_take_le _ _
  · exact le_trans (List.length_filter_le _ _) (List.length_take_le _ _)
